import Mathlib

/-!
Verification of the Experis-Bowling scoring engine (`src/Game.hpp`).

The C++ class `ExperisBowling::Game` is shallowly embedded below: C++
`unsigned` fields become `Nat` (all arithmetic in the program stays far below
`2^32`; the one subtraction, in `RollSpare`, is guarded by the invariant
`pinsOnFirstRoll ≤ NumPins`, under which unsigned and truncated `Nat`
subtraction agree), `int` becomes `Int`, `std::optional<unsigned>` becomes
`Option Nat`, `std::optional<std::string>` results become `Option String`,
and the member functions that mutate the object become functions
`Game → ... → Option String × Game` returning the result and the new state.
The 12-element `std::array<Frame, MaxFrames>` becomes a 12-element list;
`frames[i]` is modelled by `Game.GetFrame` (reads, with the default frame for
an out-of-range index, where the C++ would be undefined behaviour) and
`Game.setFrame` (writes, a no-op out of range).
-/

set_option maxRecDepth 40000
set_option maxHeartbeats 2000000

namespace ExperisBowling

abbrev FinalFrame : Nat := 10
abbrev FirstBonusFrame : Nat := FinalFrame + 1
abbrev SecondBonusFrame : Nat := FinalFrame + 2
abbrev MaxFrames : Nat := FinalFrame + 2
abbrev NumPins : Nat := 10

abbrev SpareBonusRolls : Int := 1
abbrev StrikeBonusRolls : Int := 2

/-- One frame of the bowling game (`Game::Frame` in `Game.hpp`). -/
structure Frame where
  bonusRolls : Int := 0
  currentScore : Nat := 0
  isSpare : Bool := false
  isStrike : Bool := false
  pinsOnFirstRoll : Option Nat := none
  pinsOnSecondRoll : Option Nat := none
  totalScore : Nat := 0
deriving Repr, DecidableEq

/-- The scoring engine state: the cursor and the 12 frame slots. -/
structure Game where
  currentRound : Nat := 0
  frames : List Frame := List.replicate MaxFrames {}
deriving Repr, DecidableEq

/-- The freshly constructed engine (all frames zero-initialized, cursor 0). -/
def initGame : Game := {}

/-- Models a read of `frames[i]`.  Out of range (impossible in defined C++
executions) it yields the default frame. -/
def Game.GetFrame (g : Game) (i : Nat) : Frame :=
  g.frames.getD i {}

/-- Models a write to `frames[i]` (no-op out of range). -/
def Game.setFrame (g : Game) (i : Nat) (f : Frame) : Game :=
  { g with frames := g.frames.set i f }

/-- Models an assignment to `currentRound` (the `currentRound++` statements). -/
def Game.withRound (g : Game) (k : Nat) : Game :=
  { g with currentRound := k }

/-- `Game::GetCurrentRoundIndex`. -/
def Game.GetCurrentRoundIndex (g : Game) : Nat :=
  g.currentRound

/-- `Game::CheckRoll`: validates whether a roll of `pinCount` is possible in
round `round`. -/
def Game.CheckRoll (g : Game) (pinCount round : Nat) : Bool :=
  match (g.GetFrame round).pinsOnFirstRoll with
  | none => decide (pinCount ≤ NumPins)
  | some p => decide (p + pinCount ≤ NumPins)

/-- `Game::IsSpare` (private): first-roll and second-roll pins, absent rolls
counting as 0, sum to exactly `NumPins`.  Note this is also true of a strike
frame (`10 + 0 = 10`). -/
def Game.IsSpare (g : Game) (round : Nat) : Bool :=
  decide ((g.GetFrame round).pinsOnFirstRoll.getD 0
    + (g.GetFrame round).pinsOnSecondRoll.getD 0 = NumPins)

/-- `Game::IsStrike` (private): the first roll is recorded and is `NumPins`. -/
def Game.IsStrike (g : Game) (round : Nat) : Bool :=
  decide ((g.GetFrame round).pinsOnFirstRoll = some NumPins)

/-- `Game::IsGameComplete`.  The C++ comparison `bonusRolls > 0u` converts the
`int` to `unsigned`, so it is true exactly when `bonusRolls ≠ 0`. -/
def Game.IsGameComplete (g : Game) : Bool :=
  if g.currentRound ≤ FinalFrame - 1 then false
  else if g.currentRound = FirstBonusFrame - 1 then
    !(g.IsSpare (FinalFrame - 1)) && !(g.IsStrike (FinalFrame - 1))
  else if g.currentRound = SecondBonusFrame - 1 then
    !(g.IsStrike (FinalFrame - 1) && decide ((g.GetFrame (FinalFrame - 1)).bonusRolls ≠ 0))
  else true

/-- `Game::Roll`, lines 94-97: add the pins to the active frame's round score
while within the first 10 frames. -/
def Game.addActive (g : Game) (pinCount : Nat) : Game :=
  if g.currentRound ≤ FinalFrame - 1 then
    g.setFrame g.currentRound
      { g.GetFrame g.currentRound with
        currentScore := (g.GetFrame g.currentRound).currentScore + pinCount }
  else g

/-- The mutation the bonus-propagation blocks apply to a prior frame `f`
(lines 101-113 and 118-129): credit the pins, consume one bonus roll, and on
the last bonus roll finalize `totalScore` against `prevTotal` (the
`totalScore` of the frame read by the code, `none` when the code's index
guard fails and the plain `currentScore` is used). -/
def codeBonusUpdate (f : Frame) (pinCount : Nat) (prevTotal : Option Nat) : Frame :=
  let pf := { f with currentScore := f.currentScore + pinCount,
                     bonusRolls := f.bonusRolls - 1 }
  if pf.bonusRolls = 0 then
    { pf with totalScore :=
        match prevTotal with
        | some t => t + pf.currentScore
        | none => pf.currentScore }
  else pf

/-- `Game::Roll`, lines 99-114: bonus propagation into the frame two before
the active one, finalizing against `frames[currentRound - 3]` when
`currentRound >= 3`. -/
def Game.applyTwoBack (g : Game) (pinCount : Nat) : Game :=
  if 2 ≤ g.currentRound ∧ 0 < (g.GetFrame (g.currentRound - 2)).bonusRolls then
    g.setFrame (g.currentRound - 2)
      (codeBonusUpdate (g.GetFrame (g.currentRound - 2)) pinCount
        (if 3 ≤ g.currentRound then some ((g.GetFrame (g.currentRound - 3)).totalScore)
         else none))
  else g

/-- `Game::Roll`, lines 116-130: bonus propagation into the frame immediately
before the active one, finalizing against `frames[currentRound - 2]` when
`currentRound >= 2`. -/
def Game.applyOneBack (g : Game) (pinCount : Nat) : Game :=
  if 1 ≤ g.currentRound ∧ 0 < (g.GetFrame (g.currentRound - 1)).bonusRolls then
    g.setFrame (g.currentRound - 1)
      (codeBonusUpdate (g.GetFrame (g.currentRound - 1)) pinCount
        (if 2 ≤ g.currentRound then some ((g.GetFrame (g.currentRound - 2)).totalScore)
         else none))
  else g

/-- `Game::Roll`, lines 132-174: record the pin count in the active frame and
advance the cursor as required. -/
def Game.recordFirst (g : Game) (pinCount : Nat) : Game :=
  let g4 := g.setFrame g.currentRound
    { g.GetFrame g.currentRound with pinsOnFirstRoll := some pinCount }
  if g4.IsStrike g.currentRound then
    (g4.setFrame g.currentRound
        { g4.GetFrame g.currentRound with bonusRolls := StrikeBonusRolls, isStrike := true
        }).withRound (g.currentRound + 1)
  else if g.currentRound = FirstBonusFrame - 1 ∧ g4.IsSpare (FinalFrame - 1) then
    g4.withRound (g.currentRound + 1)
  else if g.currentRound = SecondBonusFrame - 1 ∧ g4.IsStrike (FinalFrame - 1)
      ∧ g4.IsStrike (FirstBonusFrame - 1) then
    g4.withRound (g.currentRound + 1)
  else g4

def Game.recordSecond (g : Game) (pinCount : Nat) : Game :=
  let g4 := g.setFrame g.currentRound
    { g.GetFrame g.currentRound with pinsOnSecondRoll := some pinCount }
  let g5 := if g4.IsSpare g.currentRound then
      g4.setFrame g.currentRound
        { g4.GetFrame g.currentRound with bonusRolls := SpareBonusRolls, isSpare := true }
    else
      g4.setFrame g.currentRound
        { g4.GetFrame g.currentRound with totalScore :=
          if 1 ≤ g.currentRound then
            (g4.GetFrame (g.currentRound - 1)).totalScore
              + (g4.GetFrame g.currentRound).currentScore
          else (g4.GetFrame g.currentRound).currentScore }
  g5.withRound (g.currentRound + 1)

def Game.recordPins (g : Game) (pinCount : Nat) : Game :=
  match (g.GetFrame g.currentRound).pinsOnFirstRoll with
  | none => g.recordFirst pinCount
  | some _ => g.recordSecond pinCount

/-- Lines 94-130 of `Game::Roll`: active-frame score plus the two bonus
propagation blocks, in the order the C++ performs them. -/
def Game.lookBack (g : Game) (pinCount : Nat) : Game :=
  ((g.addActive pinCount).applyTwoBack pinCount).applyOneBack pinCount

/-- The successful path of `Game::Roll` (after both validity checks), as the
sequence of mutations the C++ body performs. -/
def Game.rollBody (g : Game) (pinCount : Nat) : Game :=
  (g.lookBack pinCount).recordPins pinCount

/-- `Game::Roll`: result message (`none` = success) and the new state. -/
def Game.Roll (g : Game) (pinCount : Nat) : Option String × Game :=
  if g.IsGameComplete then (some "Game complete.", g)
  else if NumPins < pinCount ∨ g.CheckRoll pinCount g.currentRound = false then
    (some ("Invalid roll - Pin count: " ++ toString pinCount), g)
  else (none, g.rollBody pinCount)

/-- `Game::RollSpare`: reads `frames[currentRound]` before any check, then
rolls the remaining pins.  (The C++ `NumPins - pinsOnFirstRoll.value()` is an
unsigned subtraction; it coincides with `Nat` subtraction because reachable
states keep `pinsOnFirstRoll ≤ NumPins`.) -/
def Game.RollSpare (g : Game) : Option String × Game :=
  match (g.GetFrame g.currentRound).pinsOnFirstRoll with
  | none => (some "Invalid spare roll\n", g)
  | some p => g.Roll (NumPins - p)

/-- `Game::RollStrike`. -/
def Game.RollStrike (g : Game) : Option String × Game :=
  g.Roll NumPins

/-- The loop in `Game::GetScore`: scan a list of frames for the first with a
nonzero total score (called on the reversed frame list). -/
def seekScore : List Frame → Option Nat
  | [] => none
  | f :: rest => if 0 < f.totalScore then some f.totalScore else seekScore rest

/-- `Game::GetScore`: seek backwards through the frames for the score; if no
frame has a nonzero total yet, fall back to frame 0's round score. -/
def Game.GetScore (g : Game) : Nat :=
  match seekScore g.frames.reverse with
  | some s => s
  | none => (g.GetFrame 0).currentScore

/-- Run a sequence of `Roll` calls, keeping only the final state. -/
def Game.rollSeq (g : Game) : List Nat → Game
  | [] => g
  | n :: ns => ((g.Roll n).2).rollSeq ns

/-- Run `n` consecutive `RollStrike` calls, collecting each call's result. -/
def Game.rollStrikes (g : Game) : Nat → List (Option String) × Game
  | 0 => ([], g)
  | n + 1 =>
    let first := g.RollStrike
    let rest := (first.2).rollStrikes n
    (first.1 :: rest.1, rest.2)

/-- The states reachable through the public API from a fresh engine.  Every
`RollStrike` is a `Roll`, every `RollSpare` either leaves the state unchanged
or performs a `Roll`, and failed `Roll`s leave the state unchanged, so closing
under `Roll` with an arbitrary pin count covers every API call sequence. -/
inductive Reachable : Game → Prop
  | init : Reachable initGame
  | roll (g : Game) (n : Nat) : Reachable g → Reachable (g.Roll n).2

theorem reachable_rollSeq (ns : List Nat) (g : Game) (h : Reachable g) :
    Reachable (g.rollSeq ns) := by
  induction ns generalizing g with
  | nil => exact h
  | cons n ns ih => exact ih _ (Reachable.roll g n h)

theorem reachable_rollStrikes (k : Nat) (g : Game) (h : Reachable g) :
    Reachable (g.rollStrikes k).2 := by
  induction k generalizing g with
  | zero => exact h
  | succ k ih => exact ih _ (Reachable.roll g NumPins h)

/-! ### Lemma kit for list indexing through `set` -/

theorem getD_set (l : List Frame) (i j : Nat) (f d : Frame) :
    (l.set i f).getD j d = if i = j ∧ i < l.length then f else l.getD j d := by
  induction l generalizing i j with
  | nil => simp [List.set]
  | cons a t ih =>
    cases i with
    | zero =>
      cases j with
      | zero => simp
      | succ j => simp
    | succ i =>
      cases j with
      | zero => simp
      | succ j =>
        simp only [List.set, List.getD_cons_succ, List.length_cons, ih]
        by_cases hij : i = j
        · subst hij
          by_cases hl : i < t.length
          · simp [hl, Nat.succ_lt_succ hl]
          · have : ¬ i + 1 < t.length + 1 := by omega
            simp [hl, this]
        · have : ¬ (i + 1 = j + 1) := by omega
          simp [hij, this]

theorem GetFrame_setFrame (g : Game) (i j : Nat) (f : Frame) :
    (g.setFrame i f).GetFrame j =
      if i = j ∧ i < g.frames.length then f else g.GetFrame j :=
  getD_set g.frames i j f {}

theorem GetFrame_setFrame_self (g : Game) (i : Nat) (f : Frame)
    (h : i < g.frames.length) : (g.setFrame i f).GetFrame i = f := by
  simp [GetFrame_setFrame, h]

theorem GetFrame_setFrame_ne (g : Game) (i j : Nat) (f : Frame) (h : i ≠ j) :
    (g.setFrame i f).GetFrame j = g.GetFrame j := by
  simp [GetFrame_setFrame, h]

theorem setFrame_currentRound (g : Game) (i : Nat) (f : Frame) :
    (g.setFrame i f).currentRound = g.currentRound := rfl

theorem setFrame_length (g : Game) (i : Nat) (f : Frame) :
    (g.setFrame i f).frames.length = g.frames.length := by
  simp [Game.setFrame]

theorem setFrame_currentRound_eq (g : Game) (i : Nat) (f : Frame) :
    (g.setFrame i f).currentRound = g.currentRound := rfl

theorem withRound_GetFrame (g : Game) (k i : Nat) :
    (g.withRound k).GetFrame i = g.GetFrame i := rfl

theorem withRound_round (g : Game) (k : Nat) :
    (g.withRound k).currentRound = k := rfl

theorem withRound_length (g : Game) (k : Nat) :
    (g.withRound k).frames.length = g.frames.length := rfl

/-! ### Characterisation of the three mutation blocks preceding `recordPins` -/

theorem addActive_currentRound (g : Game) (n : Nat) :
    (g.addActive n).currentRound = g.currentRound := by
  unfold Game.addActive; split <;> rfl

theorem addActive_length (g : Game) (n : Nat) :
    (g.addActive n).frames.length = g.frames.length := by
  unfold Game.addActive; split <;> simp [setFrame_length]

theorem addActive_GetFrame_ne (g : Game) (n j : Nat) (h : j ≠ g.currentRound) :
    (g.addActive n).GetFrame j = g.GetFrame j := by
  unfold Game.addActive; split
  · exact GetFrame_setFrame_ne _ _ _ _ (fun hh => h hh.symm)
  · rfl

/-- `addActive` only ever changes a `currentScore`. -/
theorem addActive_fields (g : Game) (n j : Nat) :
    ((g.addActive n).GetFrame j).pinsOnFirstRoll = ((g.GetFrame j)).pinsOnFirstRoll ∧
    ((g.addActive n).GetFrame j).pinsOnSecondRoll = ((g.GetFrame j)).pinsOnSecondRoll ∧
    ((g.addActive n).GetFrame j).isStrike = ((g.GetFrame j)).isStrike ∧
    ((g.addActive n).GetFrame j).isSpare = ((g.GetFrame j)).isSpare ∧
    ((g.addActive n).GetFrame j).bonusRolls = ((g.GetFrame j)).bonusRolls ∧
    ((g.addActive n).GetFrame j).totalScore = ((g.GetFrame j)).totalScore := by
  unfold Game.addActive
  split
  · rw [GetFrame_setFrame]
    split
    · next h =>
      obtain ⟨h1, _⟩ := h
      subst h1
      exact ⟨rfl, rfl, rfl, rfl, rfl, rfl⟩
    · exact ⟨rfl, rfl, rfl, rfl, rfl, rfl⟩
  · exact ⟨rfl, rfl, rfl, rfl, rfl, rfl⟩

/-- `codeBonusUpdate` never changes pins or the strike/spare flags. -/
theorem codeBonusUpdate_pins (f : Frame) (n : Nat) (pt : Option Nat) :
    (codeBonusUpdate f n pt).pinsOnFirstRoll = f.pinsOnFirstRoll ∧
    (codeBonusUpdate f n pt).pinsOnSecondRoll = f.pinsOnSecondRoll ∧
    (codeBonusUpdate f n pt).isStrike = f.isStrike ∧
    (codeBonusUpdate f n pt).isSpare = f.isSpare := by
  simp only [codeBonusUpdate]
  split <;> exact ⟨rfl, rfl, rfl, rfl⟩

/-- `codeBonusUpdate` always decrements `bonusRolls`. -/
theorem codeBonusUpdate_bonus (f : Frame) (n : Nat) (pt : Option Nat) :
    (codeBonusUpdate f n pt).bonusRolls = f.bonusRolls - 1 := by
  simp only [codeBonusUpdate]
  split <;> rfl

theorem applyTwoBack_currentRound (g : Game) (n : Nat) :
    (g.applyTwoBack n).currentRound = g.currentRound := by
  unfold Game.applyTwoBack; split <;> rfl

theorem applyTwoBack_length (g : Game) (n : Nat) :
    (g.applyTwoBack n).frames.length = g.frames.length := by
  unfold Game.applyTwoBack; split <;> simp [setFrame_length]

theorem applyTwoBack_GetFrame_ne (g : Game) (n j : Nat) (h : j ≠ g.currentRound - 2) :
    (g.applyTwoBack n).GetFrame j = g.GetFrame j := by
  unfold Game.applyTwoBack; split
  · exact GetFrame_setFrame_ne _ _ _ _ (fun hh => h hh.symm)
  · rfl

/-- `applyTwoBack` never changes pins or the strike/spare flags. -/
theorem applyTwoBack_pins (g : Game) (n j : Nat) :
    ((g.applyTwoBack n).GetFrame j).pinsOnFirstRoll = ((g.GetFrame j)).pinsOnFirstRoll ∧
    ((g.applyTwoBack n).GetFrame j).pinsOnSecondRoll = ((g.GetFrame j)).pinsOnSecondRoll ∧
    ((g.applyTwoBack n).GetFrame j).isStrike = ((g.GetFrame j)).isStrike ∧
    ((g.applyTwoBack n).GetFrame j).isSpare = ((g.GetFrame j)).isSpare := by
  unfold Game.applyTwoBack
  split
  · rw [GetFrame_setFrame]
    split
    · next h =>
      obtain ⟨h1, _⟩ := h
      rw [← h1]
      exact codeBonusUpdate_pins _ _ _
    · exact ⟨rfl, rfl, rfl, rfl⟩
  · exact ⟨rfl, rfl, rfl, rfl⟩

/-- A frame's `bonusRolls` either survives `applyTwoBack` or is decremented
from a positive value. -/
theorem applyTwoBack_bonus (g : Game) (n j : Nat) :
    ((g.applyTwoBack n).GetFrame j).bonusRolls = (g.GetFrame j).bonusRolls ∨
    (0 < (g.GetFrame j).bonusRolls ∧
      ((g.applyTwoBack n).GetFrame j).bonusRolls = (g.GetFrame j).bonusRolls - 1) := by
  unfold Game.applyTwoBack
  split
  · next hcond =>
    rw [GetFrame_setFrame]
    split
    · next h =>
      obtain ⟨h1, _⟩ := h
      rw [← h1]
      refine Or.inr ⟨hcond.2, ?_⟩
      exact codeBonusUpdate_bonus _ _ _
    · exact Or.inl rfl
  · exact Or.inl rfl

theorem applyOneBack_currentRound (g : Game) (n : Nat) :
    (g.applyOneBack n).currentRound = g.currentRound := by
  unfold Game.applyOneBack; split <;> rfl

theorem applyOneBack_length (g : Game) (n : Nat) :
    (g.applyOneBack n).frames.length = g.frames.length := by
  unfold Game.applyOneBack; split <;> simp [setFrame_length]

theorem applyOneBack_GetFrame_ne (g : Game) (n j : Nat) (h : j ≠ g.currentRound - 1) :
    (g.applyOneBack n).GetFrame j = g.GetFrame j := by
  unfold Game.applyOneBack; split
  · exact GetFrame_setFrame_ne _ _ _ _ (fun hh => h hh.symm)
  · rfl

/-- `applyOneBack` never changes pins or the strike/spare flags. -/
theorem applyOneBack_pins (g : Game) (n j : Nat) :
    ((g.applyOneBack n).GetFrame j).pinsOnFirstRoll = ((g.GetFrame j)).pinsOnFirstRoll ∧
    ((g.applyOneBack n).GetFrame j).pinsOnSecondRoll = ((g.GetFrame j)).pinsOnSecondRoll ∧
    ((g.applyOneBack n).GetFrame j).isStrike = ((g.GetFrame j)).isStrike ∧
    ((g.applyOneBack n).GetFrame j).isSpare = ((g.GetFrame j)).isSpare := by
  unfold Game.applyOneBack
  split
  · rw [GetFrame_setFrame]
    split
    · next h =>
      obtain ⟨h1, _⟩ := h
      rw [← h1]
      exact codeBonusUpdate_pins _ _ _
    · exact ⟨rfl, rfl, rfl, rfl⟩
  · exact ⟨rfl, rfl, rfl, rfl⟩

/-- A frame's `bonusRolls` either survives `applyOneBack` or is decremented
from a positive value. -/
theorem applyOneBack_bonus (g : Game) (n j : Nat) :
    ((g.applyOneBack n).GetFrame j).bonusRolls = (g.GetFrame j).bonusRolls ∨
    (0 < (g.GetFrame j).bonusRolls ∧
      ((g.applyOneBack n).GetFrame j).bonusRolls = (g.GetFrame j).bonusRolls - 1) := by
  unfold Game.applyOneBack
  split
  · next hcond =>
    rw [GetFrame_setFrame]
    split
    · next h =>
      obtain ⟨h1, _⟩ := h
      rw [← h1]
      refine Or.inr ⟨hcond.2, ?_⟩
      exact codeBonusUpdate_bonus _ _ _
    · exact Or.inl rfl
  · exact Or.inl rfl

theorem lookBack_currentRound (g : Game) (n : Nat) :
    (g.lookBack n).currentRound = g.currentRound := by
  unfold Game.lookBack
  rw [applyOneBack_currentRound, applyTwoBack_currentRound, addActive_currentRound]

theorem lookBack_length (g : Game) (n : Nat) :
    (g.lookBack n).frames.length = g.frames.length := by
  unfold Game.lookBack
  rw [applyOneBack_length, applyTwoBack_length, addActive_length]

theorem lookBack_GetFrame_ne (g : Game) (n j : Nat) (h0 : j ≠ g.currentRound)
    (h1 : j ≠ g.currentRound - 1) (h2 : j ≠ g.currentRound - 2) :
    (g.lookBack n).GetFrame j = g.GetFrame j := by
  unfold Game.lookBack
  have e1 : (g.addActive n).currentRound = g.currentRound := addActive_currentRound g n
  have e2 : ((g.addActive n).applyTwoBack n).currentRound = g.currentRound := by
    rw [applyTwoBack_currentRound, e1]
  rw [applyOneBack_GetFrame_ne _ _ _ (by rw [e2]; exact h1),
      applyTwoBack_GetFrame_ne _ _ _ (by rw [e1]; exact h2),
      addActive_GetFrame_ne g n j h0]

/-- The three blocks before `recordPins` never change pins or the
strike/spare flags of any frame. -/
theorem lookBack_pins (g : Game) (n j : Nat) :
    ((g.lookBack n).GetFrame j).pinsOnFirstRoll = ((g.GetFrame j)).pinsOnFirstRoll ∧
    ((g.lookBack n).GetFrame j).pinsOnSecondRoll = ((g.GetFrame j)).pinsOnSecondRoll ∧
    ((g.lookBack n).GetFrame j).isStrike = ((g.GetFrame j)).isStrike ∧
    ((g.lookBack n).GetFrame j).isSpare = ((g.GetFrame j)).isSpare := by
  unfold Game.lookBack
  obtain ⟨a1, a2, a3, a4, _, _⟩ := addActive_fields g n j
  obtain ⟨b1, b2, b3, b4⟩ := applyTwoBack_pins (g.addActive n) n j
  obtain ⟨c1, c2, c3, c4⟩ := applyOneBack_pins ((g.addActive n).applyTwoBack n) n j
  exact ⟨c1.trans (b1.trans a1), c2.trans (b2.trans a2),
         c3.trans (b3.trans a3), c4.trans (b4.trans a4)⟩

theorem lookBack_IsSpare (g : Game) (n k : Nat) :
    (g.lookBack n).IsSpare k = g.IsSpare k := by
  obtain ⟨h1, h2, _, _⟩ := lookBack_pins g n k
  unfold Game.IsSpare
  rw [h1, h2]

theorem lookBack_IsStrike (g : Game) (n k : Nat) :
    (g.lookBack n).IsStrike k = g.IsStrike k := by
  obtain ⟨h1, _, _, _⟩ := lookBack_pins g n k
  unfold Game.IsStrike
  rw [h1]

/-! ### Basic facts about `Roll` -/

theorem roll_of_complete (g : Game) (n : Nat) (h : g.IsGameComplete = true) :
    g.Roll n = (some "Game complete.", g) := by
  unfold Game.Roll
  rw [h]
  rfl

theorem roll_succ_iff (g : Game) (n : Nat) :
    (g.Roll n).1 = none ↔
      g.IsGameComplete = false ∧ n ≤ NumPins ∧ g.CheckRoll n g.currentRound = true := by
  unfold Game.Roll
  constructor
  · intro h
    by_cases hc : g.IsGameComplete
    · rw [if_pos hc] at h; exact absurd h (by simp)
    · rw [if_neg hc] at h
      by_cases hv : NumPins < n ∨ g.CheckRoll n g.currentRound = false
      · rw [if_pos hv] at h; exact absurd h (by simp)
      · push_neg at hv
        refine ⟨by simpa using hc, by omega, ?_⟩
        rcases Bool.eq_false_or_eq_true (g.CheckRoll n g.currentRound) with hb | hb
        · exact hb
        · exact absurd hb hv.2
  · rintro ⟨hc, hn, hcheck⟩
    rw [if_neg (by simp [hc]), if_neg (by simp [hcheck]; omega)]

theorem roll_succ_state (g : Game) (n : Nat) (h : (g.Roll n).1 = none) :
    (g.Roll n).2 = g.rollBody n := by
  rw [roll_succ_iff] at h
  unfold Game.Roll
  rw [if_neg (by simp [h.1]), if_neg (by simp [h.2.2]; omega)]

theorem roll_fail_state (g : Game) (n : Nat) (h : (g.Roll n).1 ≠ none) :
    (g.Roll n).2 = g := by
  unfold Game.Roll
  by_cases hc : g.IsGameComplete = true
  · rw [if_pos hc]
  · rw [if_neg hc]
    by_cases hv : NumPins < n ∨ g.CheckRoll n g.currentRound = false
    · rw [if_pos hv]
    · exfalso
      apply h
      unfold Game.Roll
      rw [if_neg hc, if_neg hv]

theorem finalFrame_sub_one : FinalFrame - 1 = 9 := rfl

theorem firstBonus_sub_one : FirstBonusFrame - 1 = 10 := rfl

theorem secondBonus_sub_one : SecondBonusFrame - 1 = 11 := rfl

theorem not_complete_round_le (g : Game) (h : g.IsGameComplete = false) :
    g.currentRound ≤ 11 := by
  by_contra hand
  unfold Game.IsGameComplete at h
  rw [if_neg (by rw [finalFrame_sub_one]; omega),
      if_neg (by rw [firstBonus_sub_one]; omega),
      if_neg (by rw [secondBonus_sub_one]; omega)] at h
  exact absurd h (by simp)

/-! ### The reachable-state invariant -/

/-- Structural invariant maintained by every sequence of API calls. -/
structure Inv (g : Game) : Prop where
  len : g.frames.length = MaxFrames
  round_le : g.currentRound ≤ MaxFrames
  pins_le : ∀ i, (g.GetFrame i).pinsOnFirstRoll.getD 0
      + (g.GetFrame i).pinsOnSecondRoll.getD 0 ≤ NumPins
  strike_pins : ∀ i, (g.GetFrame i).isStrike = true → (g.GetFrame i).pinsOnSecondRoll = none
  bonus_nonneg : ∀ i, 0 ≤ (g.GetFrame i).bonusRolls
  future_init : ∀ i, g.currentRound < i → g.GetFrame i = {}
  active_strike : (g.GetFrame g.currentRound).isStrike = false
  active_spare : (g.GetFrame g.currentRound).isSpare = false
  active_second : (g.GetFrame g.currentRound).pinsOnSecondRoll = none

theorem getD_replicate_frame (k i : Nat) :
    (List.replicate k ({} : Frame)).getD i {} = {} := by
  induction k generalizing i with
  | zero => rfl
  | succ k ih =>
    cases i with
    | zero => rfl
    | succ i => exact ih i

theorem initGame_GetFrame (i : Nat) : initGame.GetFrame i = {} :=
  getD_replicate_frame MaxFrames i

theorem inv_init : Inv initGame := by
  refine ⟨?_, ?_, ?_, ?_, ?_, ?_, ?_, ?_, ?_⟩
  · simp [initGame, Game.GetFrame]
  · exact Nat.zero_le _
  · intro i; rw [initGame_GetFrame]; exact by decide
  · intro i
    rw [initGame_GetFrame]
    intro _
    rfl
  · intro i
    rw [initGame_GetFrame]
  · intro i _; exact initGame_GetFrame i
  · rw [initGame_GetFrame]
  · rw [initGame_GetFrame]
  · rw [initGame_GetFrame]

theorem lookBack_bonus_nonneg (g : Game) (n : Nat)
    (h : ∀ i, 0 ≤ (g.GetFrame i).bonusRolls) :
    ∀ i, 0 ≤ ((g.lookBack n).GetFrame i).bonusRolls := by
  intro i
  have hg := h i
  have ha := (addActive_fields g n i).2.2.2.2.1
  unfold Game.lookBack
  rcases applyTwoBack_bonus (g.addActive n) n i with h2 | ⟨h2a, h2⟩ <;>
    rcases applyOneBack_bonus ((g.addActive n).applyTwoBack n) n i with h1 | ⟨h1a, h1⟩ <;>
    omega

/-- Establishes the invariant for a state obtained by storing frame `f` at the
active index of a state `h` satisfying the invariant, with the cursor left in
place or advanced by one. -/
theorem inv_ofFacts (res h : Game) (f : Frame) (k : Nat)
    (hlen : h.frames.length = MaxFrames)
    (hr : h.currentRound ≤ 11)
    (hk : k = h.currentRound ∨ k = h.currentRound + 1)
    (hreslen : res.frames.length = h.frames.length)
    (hresround : res.currentRound = k)
    (hGF : ∀ i, res.GetFrame i = if h.currentRound = i then f else h.GetFrame i)
    (hpins : ∀ i, (h.GetFrame i).pinsOnFirstRoll.getD 0
        + (h.GetFrame i).pinsOnSecondRoll.getD 0 ≤ NumPins)
    (hstr : ∀ i, (h.GetFrame i).isStrike = true → (h.GetFrame i).pinsOnSecondRoll = none)
    (hbn : ∀ i, 0 ≤ (h.GetFrame i).bonusRolls)
    (hfut : ∀ i, h.currentRound < i → h.GetFrame i = {})
    (hf1 : f.pinsOnFirstRoll.getD 0 + f.pinsOnSecondRoll.getD 0 ≤ NumPins)
    (hf2 : f.isStrike = true → f.pinsOnSecondRoll = none)
    (hf3 : 0 ≤ f.bonusRolls)
    (hact : k = h.currentRound →
      f.isStrike = false ∧ f.isSpare = false ∧ f.pinsOnSecondRoll = none) :
    Inv res := by
  refine ⟨?_, ?_, ?_, ?_, ?_, ?_, ?_, ?_, ?_⟩
  · rw [hreslen]; exact hlen
  · rw [hresround]
    have : k ≤ 12 := by rcases hk with hk | hk <;> omega
    exact this
  · intro i
    rw [hGF i]
    by_cases hi : h.currentRound = i
    · rw [if_pos hi]; exact hf1
    · rw [if_neg hi]; exact hpins i
  · intro i
    rw [hGF i]
    by_cases hi : h.currentRound = i
    · rw [if_pos hi]; exact hf2
    · rw [if_neg hi]; exact hstr i
  · intro i
    rw [hGF i]
    by_cases hi : h.currentRound = i
    · rw [if_pos hi]; exact hf3
    · rw [if_neg hi]; exact hbn i
  · intro i hi
    rw [hresround] at hi
    have hgt : h.currentRound < i := by rcases hk with hk | hk <;> omega
    rw [hGF i, if_neg (by omega)]
    exact hfut i hgt
  · rw [hresround, hGF k]
    rcases hk with hk | hk
    · rw [if_pos hk.symm]
      exact (hact hk).1
    · rw [if_neg (by omega), hfut k (by omega)]
  · rw [hresround, hGF k]
    rcases hk with hk | hk
    · rw [if_pos hk.symm]
      exact (hact hk).2.1
    · rw [if_neg (by omega), hfut k (by omega)]
  · rw [hresround, hGF k]
    rcases hk with hk | hk
    · rw [if_pos hk.symm]
      exact (hact hk).2.2
    · rw [if_neg (by omega), hfut k (by omega)]

theorem inv_recordFirst (h : Game) (n : Nat)
    (hlen : h.frames.length = MaxFrames)
    (hr : h.currentRound ≤ 11)
    (hn : n ≤ NumPins)
    (hpins : ∀ i, (h.GetFrame i).pinsOnFirstRoll.getD 0
        + (h.GetFrame i).pinsOnSecondRoll.getD 0 ≤ NumPins)
    (hstr : ∀ i, (h.GetFrame i).isStrike = true → (h.GetFrame i).pinsOnSecondRoll = none)
    (hbn : ∀ i, 0 ≤ (h.GetFrame i).bonusRolls)
    (hfut : ∀ i, h.currentRound < i → h.GetFrame i = {})
    (ha1 : (h.GetFrame h.currentRound).isStrike = false)
    (ha2 : (h.GetFrame h.currentRound).isSpare = false)
    (ha3 : (h.GetFrame h.currentRound).pinsOnSecondRoll = none) :
    Inv (h.recordFirst n) := by
  have hlen12 : h.frames.length = 12 := hlen
  have hrl : h.currentRound < h.frames.length := by omega
  simp only [Game.recordFirst]
  split_ifs with h1 h2 h3
  · rw [GetFrame_setFrame_self _ _ _ hrl]
    refine inv_ofFacts _ h _ (h.currentRound + 1) hlen hr (Or.inr rfl)
      (by rw [withRound_length, setFrame_length, setFrame_length]) rfl
      (by
        intro i
        rw [withRound_GetFrame, GetFrame_setFrame, GetFrame_setFrame, setFrame_length]
        by_cases hi : h.currentRound = i
        · rw [if_pos (And.intro hi hrl), if_pos hi]
        · rw [if_neg (fun hc => hi hc.1), if_neg (fun hc => hi hc.1), if_neg hi])
      hpins hstr hbn hfut ?_ ?_ ?_ ?_
    · have hv : (some n).getD 0
          + ((h.GetFrame h.currentRound).pinsOnSecondRoll).getD 0 ≤ NumPins := by
        rw [ha3]; simpa using hn
      exact hv
    · intro _
      exact ha3
    · exact (by decide : (0 : Int) ≤ StrikeBonusRolls)
    · intro hcon
      exact absurd hcon (by omega)
  · refine inv_ofFacts _ h _ (h.currentRound + 1) hlen hr (Or.inr rfl)
      (by rw [withRound_length, setFrame_length]) rfl
      (by
        intro i
        rw [withRound_GetFrame, GetFrame_setFrame]
        by_cases hi : h.currentRound = i
        · rw [if_pos (And.intro hi hrl), if_pos hi]
        · rw [if_neg (fun hc => hi hc.1), if_neg hi])
      hpins hstr hbn hfut ?_ ?_ ?_ ?_
    · have hv : (some n).getD 0
          + ((h.GetFrame h.currentRound).pinsOnSecondRoll).getD 0 ≤ NumPins := by
        rw [ha3]; simpa using hn
      exact hv
    · intro _
      exact ha3
    · exact hbn h.currentRound
    · intro hcon
      exact absurd hcon (by omega)
  · refine inv_ofFacts _ h _ (h.currentRound + 1) hlen hr (Or.inr rfl)
      (by rw [withRound_length, setFrame_length]) rfl
      (by
        intro i
        rw [withRound_GetFrame, GetFrame_setFrame]
        by_cases hi : h.currentRound = i
        · rw [if_pos (And.intro hi hrl), if_pos hi]
        · rw [if_neg (fun hc => hi hc.1), if_neg hi])
      hpins hstr hbn hfut ?_ ?_ ?_ ?_
    · have hv : (some n).getD 0
          + ((h.GetFrame h.currentRound).pinsOnSecondRoll).getD 0 ≤ NumPins := by
        rw [ha3]; simpa using hn
      exact hv
    · intro _
      exact ha3
    · exact hbn h.currentRound
    · intro hcon
      exact absurd hcon (by omega)
  · refine inv_ofFacts _ h _ h.currentRound hlen hr (Or.inl rfl)
      (by rw [setFrame_length]) rfl
      (by
        intro i
        rw [GetFrame_setFrame]
        by_cases hi : h.currentRound = i
        · rw [if_pos (And.intro hi hrl), if_pos hi]
        · rw [if_neg (fun hc => hi hc.1), if_neg hi])
      hpins hstr hbn hfut ?_ ?_ ?_ ?_
    · have hv : (some n).getD 0
          + ((h.GetFrame h.currentRound).pinsOnSecondRoll).getD 0 ≤ NumPins := by
        rw [ha3]; simpa using hn
      exact hv
    · intro _
      exact ha3
    · exact hbn h.currentRound
    · intro _
      exact ⟨ha1, ha2, ha3⟩

theorem inv_recordSecond (h : Game) (n p : Nat)
    (hlen : h.frames.length = MaxFrames)
    (hr : h.currentRound ≤ 11)
    (hp : (h.GetFrame h.currentRound).pinsOnFirstRoll = some p)
    (hpn : p + n ≤ NumPins)
    (hpins : ∀ i, (h.GetFrame i).pinsOnFirstRoll.getD 0
        + (h.GetFrame i).pinsOnSecondRoll.getD 0 ≤ NumPins)
    (hstr : ∀ i, (h.GetFrame i).isStrike = true → (h.GetFrame i).pinsOnSecondRoll = none)
    (hbn : ∀ i, 0 ≤ (h.GetFrame i).bonusRolls)
    (hfut : ∀ i, h.currentRound < i → h.GetFrame i = {})
    (ha1 : (h.GetFrame h.currentRound).isStrike = false)
    (ha2 : (h.GetFrame h.currentRound).isSpare = false)
    (ha3 : (h.GetFrame h.currentRound).pinsOnSecondRoll = none) :
    Inv (h.recordSecond n) := by
  have hlen12 : h.frames.length = 12 := hlen
  have hrl : h.currentRound < h.frames.length := by omega
  simp only [Game.recordSecond]
  split_ifs with h1 h2
  · rw [GetFrame_setFrame_self _ _ _ hrl]
    refine inv_ofFacts _ h _ (h.currentRound + 1) hlen hr (Or.inr rfl)
      (by rw [withRound_length, setFrame_length, setFrame_length]) rfl
      (by
        intro i
        rw [withRound_GetFrame, GetFrame_setFrame, GetFrame_setFrame h h.currentRound i,
          setFrame_length]
        by_cases hi : h.currentRound = i
        · rw [if_pos (And.intro hi hrl), if_pos hi]
        · rw [if_neg (fun hc => hi hc.1), if_neg (fun hc => hi hc.1), if_neg hi])
      hpins hstr hbn hfut ?_ ?_ ?_ ?_
    · have hv : ((h.GetFrame h.currentRound).pinsOnFirstRoll).getD 0
          + (some n).getD 0 ≤ NumPins := by
        rw [hp]; simpa using hpn
      exact hv
    · intro hcon
      have hcon2 : (h.GetFrame h.currentRound).isStrike = true := hcon
      rw [ha1] at hcon2
      exact absurd hcon2 (by decide)
    · exact (by decide : (0 : Int) ≤ SpareBonusRolls)
    · intro hcon
      exact absurd hcon (by omega)
  · rw [GetFrame_setFrame_self _ _ _ hrl]
    refine inv_ofFacts _ h _ (h.currentRound + 1) hlen hr (Or.inr rfl)
      (by rw [withRound_length, setFrame_length, setFrame_length]) rfl
      (by
        intro i
        rw [withRound_GetFrame, GetFrame_setFrame, GetFrame_setFrame h h.currentRound i,
          setFrame_length]
        by_cases hi : h.currentRound = i
        · rw [if_pos (And.intro hi hrl), if_pos hi]
        · rw [if_neg (fun hc => hi hc.1), if_neg (fun hc => hi hc.1), if_neg hi])
      hpins hstr hbn hfut ?_ ?_ ?_ ?_
    · have hv : ((h.GetFrame h.currentRound).pinsOnFirstRoll).getD 0
          + (some n).getD 0 ≤ NumPins := by
        rw [hp]; simpa using hpn
      exact hv
    · intro hcon
      have hcon2 : (h.GetFrame h.currentRound).isStrike = true := hcon
      rw [ha1] at hcon2
      exact absurd hcon2 (by decide)
    · exact hbn h.currentRound
    · intro hcon
      exact absurd hcon (by omega)
  · rw [GetFrame_setFrame_self _ _ _ hrl]
    refine inv_ofFacts _ h _ (h.currentRound + 1) hlen hr (Or.inr rfl)
      (by rw [withRound_length, setFrame_length, setFrame_length]) rfl
      (by
        intro i
        rw [withRound_GetFrame, GetFrame_setFrame, GetFrame_setFrame h h.currentRound i,
          setFrame_length]
        by_cases hi : h.currentRound = i
        · rw [if_pos (And.intro hi hrl), if_pos hi]
        · rw [if_neg (fun hc => hi hc.1), if_neg (fun hc => hi hc.1), if_neg hi])
      hpins hstr hbn hfut ?_ ?_ ?_ ?_
    · have hv : ((h.GetFrame h.currentRound).pinsOnFirstRoll).getD 0
          + (some n).getD 0 ≤ NumPins := by
        rw [hp]; simpa using hpn
      exact hv
    · intro hcon
      have hcon2 : (h.GetFrame h.currentRound).isStrike = true := hcon
      rw [ha1] at hcon2
      exact absurd hcon2 (by decide)
    · exact hbn h.currentRound
    · intro hcon
      exact absurd hcon (by omega)

theorem inv_rollBody (g : Game) (n : Nat) (hInv : Inv g)
    (hc : g.IsGameComplete = false) (hn : n ≤ NumPins)
    (hcheck : g.CheckRoll n g.currentRound = true) :
    Inv (g.rollBody n) := by
  have hr : g.currentRound ≤ 11 := not_complete_round_le g hc
  have hlb_len : (g.lookBack n).frames.length = MaxFrames := by
    rw [lookBack_length]; exact hInv.len
  have hlb_round : (g.lookBack n).currentRound = g.currentRound := lookBack_currentRound g n
  have hq1 : ∀ i, ((g.lookBack n).GetFrame i).pinsOnFirstRoll
      = (g.GetFrame i).pinsOnFirstRoll := fun i => (lookBack_pins g n i).1
  have hq2 : ∀ i, ((g.lookBack n).GetFrame i).pinsOnSecondRoll
      = (g.GetFrame i).pinsOnSecondRoll := fun i => (lookBack_pins g n i).2.1
  have hq3 : ∀ i, ((g.lookBack n).GetFrame i).isStrike
      = (g.GetFrame i).isStrike := fun i => (lookBack_pins g n i).2.2.1
  have hq4 : ∀ i, ((g.lookBack n).GetFrame i).isSpare
      = (g.GetFrame i).isSpare := fun i => (lookBack_pins g n i).2.2.2
  have hpins : ∀ i, ((g.lookBack n).GetFrame i).pinsOnFirstRoll.getD 0
      + ((g.lookBack n).GetFrame i).pinsOnSecondRoll.getD 0 ≤ NumPins := by
    intro i; rw [hq1 i, hq2 i]; exact hInv.pins_le i
  have hstr : ∀ i, ((g.lookBack n).GetFrame i).isStrike = true →
      ((g.lookBack n).GetFrame i).pinsOnSecondRoll = none := by
    intro i hi
    rw [hq2 i]
    refine hInv.strike_pins i ?_
    rw [← hq3 i]
    exact hi
  have hbn := lookBack_bonus_nonneg g n hInv.bonus_nonneg
  have hfut : ∀ i, (g.lookBack n).currentRound < i → (g.lookBack n).GetFrame i = {} := by
    intro i hi
    rw [hlb_round] at hi
    rw [lookBack_GetFrame_ne g n i (by omega) (by omega) (by omega)]
    exact hInv.future_init i hi
  have ha1 : ((g.lookBack n).GetFrame (g.lookBack n).currentRound).isStrike = false := by
    rw [hlb_round, hq3]; exact hInv.active_strike
  have ha2 : ((g.lookBack n).GetFrame (g.lookBack n).currentRound).isSpare = false := by
    rw [hlb_round, hq4]; exact hInv.active_spare
  have ha3 : ((g.lookBack n).GetFrame (g.lookBack n).currentRound).pinsOnSecondRoll = none := by
    rw [hlb_round, hq2]; exact hInv.active_second
  have hr' : (g.lookBack n).currentRound ≤ 11 := by rw [hlb_round]; exact hr
  unfold Game.rollBody Game.recordPins
  cases hcase : (g.GetFrame g.currentRound).pinsOnFirstRoll with
  | none =>
    have hscr : ((g.lookBack n).GetFrame (g.lookBack n).currentRound).pinsOnFirstRoll = none := by
      rw [hlb_round, hq1]; exact hcase
    simp only [hscr]
    exact inv_recordFirst (g.lookBack n) n hlb_len hr' hn hpins hstr hbn hfut ha1 ha2 ha3
  | some p =>
    have hscr : ((g.lookBack n).GetFrame (g.lookBack n).currentRound).pinsOnFirstRoll
        = some p := by
      rw [hlb_round, hq1]; exact hcase
    have hpn : p + n ≤ NumPins := by
      unfold Game.CheckRoll at hcheck
      rw [hcase] at hcheck
      exact of_decide_eq_true hcheck
    simp only [hscr]
    exact inv_recordSecond (g.lookBack n) n p hlb_len hr' hscr hpn
      hpins hstr hbn hfut ha1 ha2 ha3

theorem inv_roll (g : Game) (n : Nat) (hInv : Inv g) : Inv (g.Roll n).2 := by
  by_cases hs : (g.Roll n).1 = none
  · rw [roll_succ_state g n hs]
    obtain ⟨hc, hn, hcheck⟩ := (roll_succ_iff g n).1 hs
    exact inv_rollBody g n hInv hc hn hcheck
  · rw [roll_fail_state g n hs]
    exact hInv

theorem inv_of_reachable (g : Game) (h : Reachable g) : Inv g := by
  induction h with
  | init => exact inv_init
  | roll g n _ ih => exact inv_roll g n ih

/-! ### C1: the completion test as a state machine over the cursor -/

/-- Claim C1 as stated: a four-case split at cursor thresholds 9 / 10 / 11,
"frame 10" being the tenth frame, index 9. -/
def C1Claim : Prop := ∀ g : Game, Reachable g →
  (g.currentRound < 9 → g.IsGameComplete = false) ∧
  (g.currentRound = 9 →
    (g.IsGameComplete = true ↔ (g.IsStrike 9 = false ∧ g.IsSpare 9 = false))) ∧
  (g.currentRound = 10 →
    (g.IsGameComplete = true ↔ ¬(g.IsStrike 9 = true ∧ 0 < (g.GetFrame 9).bonusRolls))) ∧
  (11 ≤ g.currentRound → g.IsGameComplete = true)

/-- Eighteen gutter rolls: the cursor reaches frame 10 (index 9), which is
still unplayed. -/
def gutter18 : Game := initGame.rollSeq (List.replicate 18 0)

/-- C1, counterexample: after eighteen gutter rolls the cursor is 9 and frame
10 is neither a strike nor a spare, so the claim's cursor-9 case forces
`IsComplete` to be true, but the code returns false (its cases sit one cursor
position higher: `currentRound <= FinalFrame - 1` covers cursor 9). -/
theorem C1_counterexample : ¬ C1Claim := by
  intro hcl
  have h9 := (hcl gutter18 (reachable_rollSeq _ _ Reachable.init)).2.1 (by decide)
  have hcomp : gutter18.IsGameComplete = true := h9.mpr (by decide)
  exact absurd hcomp (by decide)

/-- C1, amended: `IsComplete()` is determined solely by the cursor as a
four-case machine, with each threshold one higher than claimed: cursor ≤ 9
(frame 10 not finished): not complete; cursor = 10: complete iff frame 10
(index 9) is neither a spare nor a strike; cursor = 11: complete iff NOT
(frame 10 was a strike AND it still has pending bonus rolls); cursor ≥ 12:
always complete. -/
theorem C1_isComplete_cases (g : Game) (hr : Reachable g) :
    (g.currentRound ≤ 9 → g.IsGameComplete = false) ∧
    (g.currentRound = 10 →
      (g.IsGameComplete = true ↔ (g.IsSpare 9 = false ∧ g.IsStrike 9 = false))) ∧
    (g.currentRound = 11 →
      (g.IsGameComplete = true ↔ ¬(g.IsStrike 9 = true ∧ 0 < (g.GetFrame 9).bonusRolls))) ∧
    (12 ≤ g.currentRound → g.IsGameComplete = true) := by
  have hbn := (inv_of_reachable g hr).bonus_nonneg 9
  refine ⟨?_, ?_, ?_, ?_⟩
  · intro h
    unfold Game.IsGameComplete
    rw [finalFrame_sub_one, if_pos h]
  · intro h
    unfold Game.IsGameComplete
    rw [finalFrame_sub_one, firstBonus_sub_one, if_neg (by omega), if_pos h]
    simp [Bool.and_eq_true, Bool.not_eq_true']
  · intro h
    unfold Game.IsGameComplete
    rw [finalFrame_sub_one, firstBonus_sub_one, secondBonus_sub_one,
        if_neg (by omega), if_neg (by omega), if_pos h]
    have hsplit : (!(g.IsStrike 9 && decide ((g.GetFrame 9).bonusRolls ≠ 0))) = true ↔
        ¬(g.IsStrike 9 = true ∧ (g.GetFrame 9).bonusRolls ≠ 0) := by
      cases g.IsStrike 9 <;> by_cases hbz : (g.GetFrame 9).bonusRolls ≠ 0 <;> simp [hbz]
    rw [hsplit]
    constructor
    · intro hh hcon
      exact hh ⟨hcon.1, by omega⟩
    · intro hh hcon
      exact hh ⟨hcon.1, by omega⟩
  · intro h
    unfold Game.IsGameComplete
    rw [finalFrame_sub_one, firstBonus_sub_one, secondBonus_sub_one,
        if_neg (by omega), if_neg (by omega), if_neg (by omega)]

/-- C1, witness for the amended theorem: on the fresh engine, cursor 0 ≤ 9,
so the game is not complete. -/
theorem C1_witness : initGame.IsGameComplete = false :=
  (C1_isComplete_cases initGame Reachable.init).1 (by decide)

/-! ### C2: the perfect game -/

/-- C2: twelve consecutive `RollStrike()` calls on a fresh engine all succeed,
after which the total score is 300 and the game is complete. -/
theorem C2_perfect_game :
    (initGame.rollStrikes 12).1 = List.replicate 12 none ∧
    (initGame.rollStrikes 12).2.GetScore = 300 ∧
    (initGame.rollStrikes 12).2.IsGameComplete = true := by
  decide

/-! ### C3: rolling on a complete game -/

/-- Claim C3 as stated: on a complete game every roll operation fails with the
`GameComplete` error and leaves the state unchanged. -/
def C3Claim : Prop := ∀ g : Game, Reachable g → g.IsGameComplete = true →
  (∀ n, g.Roll n = (some "Game complete.", g)) ∧
  g.RollSpare = (some "Game complete.", g) ∧
  g.RollStrike = (some "Game complete.", g)

/-- Twenty gutter rolls: an ordinary finished game, cursor 10. -/
def gutter20 : Game := initGame.rollSeq (List.replicate 20 0)

/-- C3, counterexample: on the completed all-gutter game, `RollSpare()` checks
`pinsOnFirstRoll` of the (empty) slot 10 before the completeness check, so it
reports `Invalid spare roll`, not `Game complete.`. -/
theorem C3_counterexample : ¬ C3Claim := by
  intro hcl
  have h := (hcl gutter20 (reachable_rollSeq _ _ Reachable.init) (by decide)).2.1
  exact absurd h (by decide)

/-- C3, amended: on a complete game, `RecordRoll` and `RollStrike` fail with
`GameComplete` and leave the state unchanged; `RollSpare` also leaves the
state unchanged, but reports `InvalidSpareRoll` when the active slot has no
first roll recorded (its pre-check precedes the completeness check) and
`GameComplete` otherwise. -/
theorem C3_complete_rolls_fail (g : Game) (hc : g.IsGameComplete = true) :
    (∀ n, g.Roll n = (some "Game complete.", g)) ∧
    g.RollStrike = (some "Game complete.", g) ∧
    ((g.GetFrame g.currentRound).pinsOnFirstRoll = none →
      g.RollSpare = (some "Invalid spare roll\n", g)) ∧
    (∀ p, (g.GetFrame g.currentRound).pinsOnFirstRoll = some p →
      g.RollSpare = (some "Game complete.", g)) := by
  have hroll : ∀ n, g.Roll n = (some "Game complete.", g) :=
    fun n => roll_of_complete g n hc
  refine ⟨hroll, hroll NumPins, ?_, ?_⟩
  · intro hnone
    unfold Game.RollSpare
    simp only [hnone]
  · intro p hp
    unfold Game.RollSpare
    simp only [hp]
    exact hroll (NumPins - p)

/-- C3, witness for the amended theorem: on the completed all-gutter game a
plain roll fails with `GameComplete` and changes nothing. -/
theorem C3_witness : gutter20.Roll 0 = (some "Game complete.", gutter20) :=
  (C3_complete_rolls_fail gutter20 (by decide)).1 0

/-! ### Further helpers: untouched frames, error characterisation, `GetScore` -/

theorem applyTwoBack_not_busy (X : Game) (n : Nat)
    (h : ¬(2 ≤ X.currentRound ∧ 0 < (X.GetFrame (X.currentRound - 2)).bonusRolls)) :
    X.applyTwoBack n = X := by
  unfold Game.applyTwoBack
  rw [if_neg h]

theorem applyOneBack_not_busy (X : Game) (n : Nat)
    (h : ¬(1 ≤ X.currentRound ∧ 0 < (X.GetFrame (X.currentRound - 1)).bonusRolls)) :
    X.applyOneBack n = X := by
  unfold Game.applyOneBack
  rw [if_neg h]

theorem recordFirst_GetFrame_ne (h : Game) (n j : Nat) (hj : j ≠ h.currentRound) :
    (h.recordFirst n).GetFrame j = h.GetFrame j := by
  simp only [Game.recordFirst]
  split_ifs
  · rw [withRound_GetFrame, GetFrame_setFrame_ne _ _ _ _ (fun hh => hj hh.symm),
        GetFrame_setFrame_ne _ _ _ _ (fun hh => hj hh.symm)]
  · rw [withRound_GetFrame, GetFrame_setFrame_ne _ _ _ _ (fun hh => hj hh.symm)]
  · rw [withRound_GetFrame, GetFrame_setFrame_ne _ _ _ _ (fun hh => hj hh.symm)]
  · rw [GetFrame_setFrame_ne _ _ _ _ (fun hh => hj hh.symm)]

theorem recordSecond_GetFrame_ne (h : Game) (n j : Nat) (hj : j ≠ h.currentRound) :
    (h.recordSecond n).GetFrame j = h.GetFrame j := by
  simp only [Game.recordSecond]
  split_ifs
  · rw [withRound_GetFrame, GetFrame_setFrame_ne _ _ _ _ (fun hh => hj hh.symm),
        GetFrame_setFrame_ne _ _ _ _ (fun hh => hj hh.symm)]
  · rw [withRound_GetFrame, GetFrame_setFrame_ne _ _ _ _ (fun hh => hj hh.symm),
        GetFrame_setFrame_ne _ _ _ _ (fun hh => hj hh.symm)]
  · rw [withRound_GetFrame, GetFrame_setFrame_ne _ _ _ _ (fun hh => hj hh.symm),
        GetFrame_setFrame_ne _ _ _ _ (fun hh => hj hh.symm)]

theorem recordPins_GetFrame_ne (h : Game) (n j : Nat) (hj : j ≠ h.currentRound) :
    (h.recordPins n).GetFrame j = h.GetFrame j := by
  unfold Game.recordPins
  rcases hx : (h.GetFrame h.currentRound).pinsOnFirstRoll with _ | p <;> simp only [hx]
  · exact recordFirst_GetFrame_ne h n j hj
  · exact recordSecond_GetFrame_ne h n j hj

theorem roll_invalid_iff (g : Game) (n : Nat) (hc : g.IsGameComplete = false) :
    (g.Roll n).1 = some ("Invalid roll - Pin count: " ++ toString n) ↔
      (NumPins < n ∨ g.CheckRoll n g.currentRound = false) := by
  unfold Game.Roll
  rw [if_neg (by simp [hc])]
  by_cases hv : NumPins < n ∨ g.CheckRoll n g.currentRound = false
  · rw [if_pos hv]
    exact ⟨fun _ => hv, fun _ => rfl⟩
  · rw [if_neg hv]
    exact ⟨fun hcon => Option.noConfusion hcon, fun hrhs => absurd hrhs hv⟩

theorem checkRoll_false_iff (g : Game) (n : Nat)
    (hple : ∀ p, (g.GetFrame g.currentRound).pinsOnFirstRoll = some p → p ≤ NumPins) :
    (NumPins < n ∨ g.CheckRoll n g.currentRound = false) ↔
      (NumPins < n ∨ ∃ p, (g.GetFrame g.currentRound).pinsOnFirstRoll = some p
        ∧ NumPins - p < n) := by
  unfold Game.CheckRoll
  rcases hp1 : (g.GetFrame g.currentRound).pinsOnFirstRoll with _ | p <;> simp only [hp1]
  · constructor
    · rintro (hbig | hbad)
      · exact Or.inl hbig
      · exact Or.inl (by simpa using hbad)
    · rintro (hbig | ⟨p, hp, _⟩)
      · exact Or.inl hbig
      · exact Option.noConfusion hp
  · have hp10 : p ≤ NumPins := hple p hp1
    constructor
    · rintro (hbig | hbad)
      · exact Or.inl hbig
      · refine Or.inr ⟨p, rfl, ?_⟩
        have : ¬(p + n ≤ NumPins) := by simpa using hbad
        omega
    · rintro (hbig | ⟨q, hq, hlt⟩)
      · exact Or.inl hbig
      · right
        obtain rfl : p = q := Option.some.inj hq
        have : ¬(p + n ≤ NumPins) := by omega
        simpa using this

theorem GetFrame_eq_getElem (g : Game) (j : Nat) (h : j < g.frames.length) :
    g.GetFrame j = g.frames[j] := by
  unfold Game.GetFrame
  rw [List.getD_eq_getElem?_getD, List.getElem?_eq_getElem h]
  rfl

theorem seekScore_eq_none (l : List Frame) (h : ∀ f ∈ l, f.totalScore = 0) :
    seekScore l = none := by
  induction l with
  | nil => rfl
  | cons a t ih =>
    unfold seekScore
    rw [if_neg (by have := h a (List.mem_cons_self a t); omega)]
    exact ih (fun f hf => h f (List.mem_cons_of_mem a hf))

theorem seekScore_append_none (l1 l2 : List Frame) (h : seekScore l1 = none) :
    seekScore (l1 ++ l2) = seekScore l2 := by
  induction l1 with
  | nil => rfl
  | cons a t ih =>
    rw [List.cons_append]
    have h2 : (if 0 < a.totalScore then some a.totalScore else seekScore t) = none := h
    show (if 0 < a.totalScore then some a.totalScore else seekScore (t ++ l2)) = seekScore l2
    by_cases ha : 0 < a.totalScore
    · rw [if_pos ha] at h2
      exact Option.noConfusion h2
    · rw [if_neg ha] at h2
      rw [if_neg ha]
      exact ih h2

/-! ### C6: the failure conditions of a roll -/

/-- C6: for a game that is not complete, a roll fails (with the
`InvalidRollCount` message carrying the offending pin count) exactly when the
pin count exceeds 10 or exceeds the pins still standing (`10 - pinsRoll1` on
a second roll); any such failure leaves the state unchanged.  The first
conjunct shows the completeness check precedes the pin-count checks: on a
complete game the error is `GameComplete` whatever the pin count. -/
theorem C6_invalid_roll (g : Game) (n : Nat) (hr : Reachable g) :
    (g.IsGameComplete = true → (g.Roll n).1 = some "Game complete.") ∧
    (g.IsGameComplete = false →
      (((g.Roll n).1 = some ("Invalid roll - Pin count: " ++ toString n)) ↔
        (NumPins < n ∨ ∃ p, (g.GetFrame g.currentRound).pinsOnFirstRoll = some p
          ∧ NumPins - p < n)) ∧
      ((g.Roll n).1 ≠ none → (g.Roll n).2 = g)) := by
  have hInv := inv_of_reachable g hr
  have hple : ∀ p, (g.GetFrame g.currentRound).pinsOnFirstRoll = some p → p ≤ NumPins := by
    intro p hp
    have hpl := hInv.pins_le g.currentRound
    rw [hp] at hpl
    simp only [Option.getD_some] at hpl
    omega
  refine ⟨fun hc => by rw [roll_of_complete g n hc], fun hc => ⟨?_, ?_⟩⟩
  · rw [roll_invalid_iff g n hc]
    exact checkRoll_false_iff g n hple
  · exact fun hne => roll_fail_state g n hne

/-- C6, witness: on a fresh engine a roll of 11 pins fails with the
`InvalidRollCount` message carrying 11. -/
theorem C6_witness :
    (initGame.Roll 11).1 = some ("Invalid roll - Pin count: " ++ toString 11) :=
  ((C6_invalid_roll initGame 11 Reachable.init).2 (by decide)).1.mpr (Or.inl (by decide))

/-! ### C7: `GetScore` returns the last finalized cumulative score -/

/-- C7: `GetTotalScore` scans the 12 frame slots from last to first and
returns the first nonzero `cumulativeScore`; when every slot's
`cumulativeScore` is zero it falls back to frame 0's `roundScore`.  Stated
for every state, which covers every reachable one. -/
theorem C7_getScore_last_nonzero (g : Game) :
    ((∀ f ∈ g.frames, f.totalScore = 0) → g.GetScore = (g.GetFrame 0).currentScore) ∧
    (∀ i, i < g.frames.length → (g.GetFrame i).totalScore ≠ 0 →
      (∀ j, i < j → j < g.frames.length → (g.GetFrame j).totalScore = 0) →
      g.GetScore = (g.GetFrame i).totalScore) := by
  constructor
  · intro hall
    unfold Game.GetScore
    rw [seekScore_eq_none _ (fun f hf => hall f (List.mem_reverse.mp hf))]
  · intro i hi hnz hafter
    have hgf := GetFrame_eq_getElem g i hi
    have hdropz : ∀ f ∈ (g.frames.drop (i + 1)).reverse, f.totalScore = 0 := by
      intro f hf
      rw [List.mem_reverse] at hf
      obtain ⟨k, hk, hfk⟩ := List.mem_iff_getElem.mp hf
      rw [List.getElem_drop] at hfk
      have hlen : i + 1 + k < g.frames.length := by
        rw [List.length_drop] at hk
        omega
      have hz := hafter (i + 1 + k) (by omega) hlen
      rw [GetFrame_eq_getElem g _ hlen] at hz
      rw [← hfk]
      exact hz
    have htake : (g.frames.take (i + 1)).reverse
        = g.frames[i] :: (g.frames.take i).reverse := by
      rw [List.take_succ, List.getElem?_eq_getElem hi]
      simp
    unfold Game.GetScore
    rw [show g.frames.reverse
          = (g.frames.drop (i + 1)).reverse ++ (g.frames.take (i + 1)).reverse from by
        rw [← List.reverse_append, List.take_append_drop],
      seekScore_append_none _ _ (seekScore_eq_none _ hdropz), htake]
    unfold seekScore
    rw [if_pos (by rw [hgf] at hnz; omega), hgf]

/-- C7, witness: on the finished all-gutter game every total is zero, so the
score is frame 0's round score. -/
theorem C7_witness : gutter20.GetScore = (gutter20.GetFrame 0).currentScore :=
  (C7_getScore_last_nonzero gutter20).1 (by decide)

/-! ### C8: the two-roll pin bound -/

/-- C8: in every reachable state, every frame's two recorded pin counts
(absent rolls read as 0) sum to at most 10, and a strike frame never has a
second roll recorded. -/
theorem C8_pins_invariant (g : Game) (hr : Reachable g) :
    ∀ i, (g.GetFrame i).pinsOnFirstRoll.getD 0
        + (g.GetFrame i).pinsOnSecondRoll.getD 0 ≤ NumPins ∧
      ((g.GetFrame i).isStrike = true → (g.GetFrame i).pinsOnSecondRoll = none) := by
  have hInv := inv_of_reachable g hr
  exact fun i => ⟨hInv.pins_le i, hInv.strike_pins i⟩

/-- C8, witness: after a perfect game, frame 0 (a strike) satisfies the
bound and has no second roll. -/
theorem C8_witness :
    ((initGame.rollStrikes 12).2.GetFrame 0).pinsOnFirstRoll.getD 0
        + ((initGame.rollStrikes 12).2.GetFrame 0).pinsOnSecondRoll.getD 0 ≤ NumPins ∧
      ((initGame.rollStrikes 12).2.GetFrame 0).pinsOnSecondRoll = none := by
  have h := C8_pins_invariant (initGame.rollStrikes 12).2
    (reachable_rollStrikes 12 initGame Reachable.init) 0
  exact ⟨h.1, h.2 (by decide)⟩

/-! ### C9: a successful roll only mutates the lookback window -/

/-- C9: a successful roll leaves every frame unchanged except possibly the
active frame and the one or two immediately preceding frames that still have
pending bonus rolls. -/
theorem C9_roll_mutates_locally (g : Game) (n : Nat) (hs : (g.Roll n).1 = none) :
    ∀ i, i ≠ g.currentRound →
      ((i + 1 = g.currentRound ∨ i + 2 = g.currentRound) →
        (g.GetFrame i).bonusRolls ≤ 0) →
      ((g.Roll n).2).GetFrame i = g.GetFrame i := by
  intro i hne hbz
  rw [roll_succ_state g n hs]
  unfold Game.rollBody
  have hlbr : (g.lookBack n).currentRound = g.currentRound := lookBack_currentRound g n
  rw [recordPins_GetFrame_ne _ _ _ (by rw [hlbr]; exact hne)]
  unfold Game.lookBack
  have e1 : (g.addActive n).currentRound = g.currentRound := addActive_currentRound g n
  have e2 : ((g.addActive n).applyTwoBack n).currentRound = g.currentRound := by
    rw [applyTwoBack_currentRound, e1]
  have hX1 : (g.addActive n).GetFrame i = g.GetFrame i := addActive_GetFrame_ne g n i hne
  have hstep2 : ((g.addActive n).applyTwoBack n).GetFrame i = g.GetFrame i := by
    by_cases hg2 : 2 ≤ (g.addActive n).currentRound
        ∧ 0 < ((g.addActive n).GetFrame ((g.addActive n).currentRound - 2)).bonusRolls
    · have hne2 : i ≠ (g.addActive n).currentRound - 2 := by
        intro hcon
        have hb := (addActive_fields g n i).2.2.2.2.1
        rw [← hcon] at hg2
        have h2r : 2 ≤ g.currentRound := by rw [← e1]; exact hg2.1
        have : (g.GetFrame i).bonusRolls ≤ 0 := hbz (Or.inr (by rw [hcon, e1]; omega))
        rw [hb] at hg2
        omega
      rw [applyTwoBack_GetFrame_ne _ _ _ hne2, hX1]
    · rw [applyTwoBack_not_busy _ _ hg2, hX1]
  by_cases hg1 : 1 ≤ ((g.addActive n).applyTwoBack n).currentRound
      ∧ 0 < (((g.addActive n).applyTwoBack n).GetFrame
        (((g.addActive n).applyTwoBack n).currentRound - 1)).bonusRolls
  · have hne1 : i ≠ ((g.addActive n).applyTwoBack n).currentRound - 1 := by
      intro hcon
      have h1r : 1 ≤ g.currentRound := by rw [← e2]; exact hg1.1
      have hle : (g.GetFrame i).bonusRolls ≤ 0 := hbz (Or.inl (by rw [hcon, e2]; omega))
      have := hg1.2
      rw [← hcon, hstep2] at this
      omega
    rw [applyOneBack_GetFrame_ne _ _ _ hne1, hstep2]
  · rw [applyOneBack_not_busy _ _ hg1, hstep2]

/-- C9, witness: the successful opening roll of 3 pins leaves frame 5
untouched. -/
theorem C9_witness : ((initGame.Roll 3).2).GetFrame 5 = initGame.GetFrame 5 :=
  C9_roll_mutates_locally initGame 3 (by decide) 5 (by decide) (by decide)

/-! ### C4: the bonus lookback and its finalization rule -/

/-- Claim C4's per-frame bonus rule, read literally: the pin count is added to
the lookback frame's round score, its pending counter decremented, and on
reaching 0 its cumulative score finalized as the cumulative score of THE
FRAME TWO POSITIONS BEFORE IT (or 0 if none exists) plus its own round
score.  All reads are against the pre-roll state `g`. -/
def bonusClaimFrame (g : Game) (pinCount k : Nat) : Frame :=
  codeBonusUpdate (g.GetFrame k) pinCount
    (if 2 ≤ k then some ((g.GetFrame (k - 2)).totalScore) else none)

/-- Claim C4 as stated, for both lookback positions. -/
def C4Claim : Prop := ∀ g : Game, Reachable g → ∀ n : Nat, (g.Roll n).1 = none →
  (∀ k, k + 2 = g.currentRound → 0 < (g.GetFrame k).bonusRolls →
    ((g.Roll n).2).GetFrame k = bonusClaimFrame g n k) ∧
  (∀ k, k + 1 = g.currentRound → 0 < (g.GetFrame k).bonusRolls →
    ((g.Roll n).2).GetFrame k = bonusClaimFrame g n k)

/-- The state after the rolls 1,2 | 3,4 | strike | strike, written out so
concrete evaluation stays cheap. -/
def stateDoubleStrike : Game :=
  { currentRound := 4,
    frames :=
      [ { currentScore := 3, pinsOnFirstRoll := some 1, pinsOnSecondRoll := some 2,
          totalScore := 3 },
        { currentScore := 7, pinsOnFirstRoll := some 3, pinsOnSecondRoll := some 4,
          totalScore := 10 },
        { bonusRolls := 1, currentScore := 20, isStrike := true, pinsOnFirstRoll := some 10 },
        { bonusRolls := 2, currentScore := 10, isStrike := true, pinsOnFirstRoll := some 10 },
        {}, {}, {}, {}, {}, {}, {}, {} ] }

theorem stateDoubleStrike_eq :
    stateDoubleStrike = initGame.rollSeq [1, 2, 3, 4, 10, 10] := by decide

/-- C4, counterexample: play 1,2 | 3,4 | strike | strike, then roll 5.  Frame
2 (the first strike) consumes its last bonus roll and the code finalizes it
against frame 1's cumulative score (10), giving 10 + 25 = 35; the claim's
"two positions before it" is frame 0 (cumulative 3), giving 3 + 25 = 28. -/
theorem C4_counterexample : ¬ C4Claim := by
  intro hcl
  have hreach : Reachable stateDoubleStrike := by
    rw [stateDoubleStrike_eq]
    exact reachable_rollSeq _ _ Reachable.init
  have h := (hcl stateDoubleStrike hreach 5 (by decide)).1 2 (by decide) (by decide)
  exact absurd h (by decide)

/-- Modelled from the amended claim: the lookback frame `k` has the pin count
added to its round score and its pending counter decremented; when the
counter reaches 0 its cumulative score is finalized as the cumulative score
of the frame IMMEDIATELY BEFORE it (or 0 when `k` is frame 0) plus its own
round score. -/
def bonusSpecFrame (base : Game) (pinCount k : Nat) : Frame :=
  if 0 < (base.GetFrame k).bonusRolls then
    codeBonusUpdate (base.GetFrame k) pinCount
      (if 1 ≤ k then some ((base.GetFrame (k - 1)).totalScore) else none)
  else base.GetFrame k

/-- The amended claim's lookback pass: the two frames preceding the active
one are examined in order two-back then one-back, the one-back frame reading
the state as already updated this roll. -/
def bonusSpecStep (g : Game) (pinCount : Nat) : Game :=
  let g1 := if 2 ≤ g.currentRound then
      g.setFrame (g.currentRound - 2) (bonusSpecFrame g pinCount (g.currentRound - 2))
    else g
  if 1 ≤ g.currentRound then
    g1.setFrame (g.currentRound - 1) (bonusSpecFrame g1 pinCount (g.currentRound - 1))
  else g1

/-- C4, amended: on every successful roll the two frames preceding the active
one end up exactly as the spec-level lookback pass (two-back then one-back,
pins added and counter decremented when pending, finalization against the
IMMEDIATELY preceding frame's cumulative score, 0 for frame 0) prescribes. -/
theorem C4_bonus_propagation (g : Game) (n : Nat)
    (hlen : g.frames.length = MaxFrames) (hs : (g.Roll n).1 = none) :
    (∀ k, k + 2 = g.currentRound →
      ((g.Roll n).2).GetFrame k = (bonusSpecStep g n).GetFrame k) ∧
    (∀ k, k + 1 = g.currentRound →
      ((g.Roll n).2).GetFrame k = (bonusSpecStep g n).GetFrame k) := by
  obtain ⟨hc, hn, hcheck⟩ := (roll_succ_iff g n).1 hs
  have hr11 : g.currentRound ≤ 11 := not_complete_round_le g hc
  have hlen12 : g.frames.length = 12 := hlen
  have e1 : (g.addActive n).currentRound = g.currentRound := addActive_currentRound g n
  have e2 : ((g.addActive n).applyTwoBack n).currentRound = g.currentRound := by
    rw [applyTwoBack_currentRound, e1]
  have hAf : ∀ j, j ≠ g.currentRound → (g.addActive n).GetFrame j = g.GetFrame j :=
    fun j hj => addActive_GetFrame_ne g n j hj
  have htwo : 2 ≤ g.currentRound →
      ((g.addActive n).applyTwoBack n).GetFrame (g.currentRound - 2)
        = bonusSpecFrame g n (g.currentRound - 2) := by
    intro h2
    have hpre : (g.addActive n).GetFrame (g.currentRound - 2)
        = g.GetFrame (g.currentRound - 2) := hAf _ (by omega)
    rw [Game.applyTwoBack, bonusSpecFrame, e1, hpre, hAf (g.currentRound - 3) (by omega)]
    by_cases hb : 0 < (g.GetFrame (g.currentRound - 2)).bonusRolls
    · rw [if_pos (And.intro h2 hb), if_pos hb,
          GetFrame_setFrame_self _ _ _ (by rw [addActive_length]; omega)]
      congr 1
      by_cases h3 : 3 ≤ g.currentRound
      · rw [if_pos h3, if_pos (by omega : 1 ≤ g.currentRound - 2),
            show g.currentRound - 2 - 1 = g.currentRound - 3 from by omega]
      · rw [if_neg h3, if_neg (by omega)]
    · rw [if_neg (fun hcc => hb hcc.2), if_neg hb]
      exact hpre
  rw [roll_succ_state g n hs]
  unfold Game.rollBody
  constructor
  · intro k hk
    have h2 : 2 ≤ g.currentRound := by omega
    have hkr : k = g.currentRound - 2 := by omega
    subst hkr
    rw [recordPins_GetFrame_ne _ _ _ (by rw [lookBack_currentRound]; omega)]
    unfold Game.lookBack
    rw [applyOneBack_GetFrame_ne _ _ _ (by rw [e2]; omega), htwo h2]
    simp only [bonusSpecStep]
    rw [if_pos (by omega : 1 ≤ g.currentRound), if_pos h2,
        GetFrame_setFrame_ne _ _ _ _ (by omega : g.currentRound - 1 ≠ g.currentRound - 2),
        GetFrame_setFrame_self _ _ _ (by omega : g.currentRound - 2 < g.frames.length)]
  · intro k hk
    have h1 : 1 ≤ g.currentRound := by omega
    have hkr : k = g.currentRound - 1 := by omega
    subst hkr
    rw [recordPins_GetFrame_ne _ _ _ (by rw [lookBack_currentRound]; omega)]
    unfold Game.lookBack
    have hX2f : ((g.addActive n).applyTwoBack n).GetFrame (g.currentRound - 1)
        = g.GetFrame (g.currentRound - 1) := by
      by_cases hh : 2 ≤ g.currentRound
      · rw [applyTwoBack_GetFrame_ne _ _ _ (by rw [e1]; omega), hAf _ (by omega)]
      · rw [applyTwoBack_not_busy _ _ (fun hcc => hh (by rw [← e1]; exact hcc.1)),
            hAf _ (by omega)]
    have hg1len : (if 2 ≤ g.currentRound then
        g.setFrame (g.currentRound - 2) (bonusSpecFrame g n (g.currentRound - 2))
      else g).frames.length = g.frames.length := by
      split_ifs
      · rw [setFrame_length]
      · rfl
    have hg1f1 : (if 2 ≤ g.currentRound then
        g.setFrame (g.currentRound - 2) (bonusSpecFrame g n (g.currentRound - 2))
      else g).GetFrame (g.currentRound - 1) = g.GetFrame (g.currentRound - 1) := by
      split_ifs with hh
      · exact GetFrame_setFrame_ne _ _ _ _ (by omega)
      · rfl
    have hg1f2 : 2 ≤ g.currentRound → (if 2 ≤ g.currentRound then
        g.setFrame (g.currentRound - 2) (bonusSpecFrame g n (g.currentRound - 2))
      else g).GetFrame (g.currentRound - 2) = bonusSpecFrame g n (g.currentRound - 2) := by
      intro hh
      rw [if_pos hh]
      exact GetFrame_setFrame_self _ _ _ (by omega)
    simp only [bonusSpecStep]
    rw [if_pos h1, GetFrame_setFrame_self _ _ _ (by rw [hg1len]; omega)]
    rw [bonusSpecFrame, hg1f1,
        show g.currentRound - 1 - 1 = g.currentRound - 2 from by omega]
    rw [Game.applyOneBack, e2]
    by_cases hbb : 0 < (g.GetFrame (g.currentRound - 1)).bonusRolls
    · rw [if_pos (And.intro h1 (by rw [hX2f]; exact hbb)), if_pos hbb,
          GetFrame_setFrame_self _ _ _ (by rw [applyTwoBack_length, addActive_length]; omega),
          hX2f]
      congr 1
      by_cases hh : 2 ≤ g.currentRound
      · rw [if_pos hh, if_pos (by omega : 1 ≤ g.currentRound - 1), htwo hh, hg1f2 hh]
      · rw [if_neg hh, if_neg (by omega)]
    · rw [if_neg (fun hcc => hbb (by rw [← hX2f]; exact hcc.2)), if_neg hbb]
      exact hX2f

/-- C4, witness for the amended theorem: the same play (1,2 | 3,4 | strike |
strike, roll 5): frame 2 ends up exactly as the spec-level lookback pass
prescribes. -/
theorem C4_witness :
    (stateDoubleStrike.Roll 5).2.GetFrame 2
      = (bonusSpecStep stateDoubleStrike 5).GetFrame 2 :=
  (C4_bonus_propagation stateDoubleStrike 5 (by decide) (by decide)).1 2 (by decide)

/-! ### C5: recording a roll into the active frame -/

/-- Claim C5 as stated.  "Frame 10 was a spare" (and "were strikes") read the
engine's derived flags, which the spec's data model defines: `isSpare` is set
exactly when a frame's two rolls sum to 10, `isStrike` on a first-roll 10 (a
strike frame is not a spare: it never has a second roll). -/
def C5Claim : Prop := ∀ g : Game, Reachable g → ∀ n : Nat, (g.Roll n).1 = none →
  ((g.GetFrame g.currentRound).pinsOnFirstRoll = none →
    (n = 10 →
      (((g.Roll n).2).GetFrame g.currentRound).isStrike = true ∧
      (((g.Roll n).2).GetFrame g.currentRound).bonusRolls = 2 ∧
      (((g.Roll n).2).GetFrame g.currentRound).pinsOnSecondRoll = none ∧
      ((g.Roll n).2).currentRound = g.currentRound + 1) ∧
    (n ≠ 10 →
      (((g.Roll n).2).currentRound = g.currentRound + 1 ↔
        (g.currentRound = 10 ∧ (g.GetFrame 9).isSpare = true) ∨
        (g.currentRound = 11 ∧ (g.GetFrame 9).isStrike = true
          ∧ (g.GetFrame 10).isStrike = true)))) ∧
  (∀ p, (g.GetFrame g.currentRound).pinsOnFirstRoll = some p →
    (((g.Roll n).2).GetFrame g.currentRound).pinsOnSecondRoll = some n ∧
    (p + n = 10 →
      (((g.Roll n).2).GetFrame g.currentRound).isSpare = true ∧
      (((g.Roll n).2).GetFrame g.currentRound).bonusRolls = 1) ∧
    (p + n ≠ 10 →
      (((g.Roll n).2).GetFrame g.currentRound).totalScore =
        (if 1 ≤ g.currentRound
         then (((g.Roll n).2).GetFrame (g.currentRound - 1)).totalScore else 0)
        + (((g.Roll n).2).GetFrame g.currentRound).currentScore) ∧
    ((g.Roll n).2).currentRound = g.currentRound + 1)

/-- The state after eighteen gutter rolls and a strike in frame 10, written
out so concrete evaluation stays cheap. -/
def stateStrikeTenth : Game :=
  { currentRound := 10,
    frames :=
      [ { currentScore := 0, pinsOnFirstRoll := some 0, pinsOnSecondRoll := some 0 },
        { currentScore := 0, pinsOnFirstRoll := some 0, pinsOnSecondRoll := some 0 },
        { currentScore := 0, pinsOnFirstRoll := some 0, pinsOnSecondRoll := some 0 },
        { currentScore := 0, pinsOnFirstRoll := some 0, pinsOnSecondRoll := some 0 },
        { currentScore := 0, pinsOnFirstRoll := some 0, pinsOnSecondRoll := some 0 },
        { currentScore := 0, pinsOnFirstRoll := some 0, pinsOnSecondRoll := some 0 },
        { currentScore := 0, pinsOnFirstRoll := some 0, pinsOnSecondRoll := some 0 },
        { currentScore := 0, pinsOnFirstRoll := some 0, pinsOnSecondRoll := some 0 },
        { currentScore := 0, pinsOnFirstRoll := some 0, pinsOnSecondRoll := some 0 },
        { bonusRolls := 2, currentScore := 10, isStrike := true, pinsOnFirstRoll := some 10 },
        {}, {} ] }

theorem stateStrikeTenth_eq :
    stateStrikeTenth = initGame.rollSeq (List.replicate 18 0 ++ [10]) := by decide

/-- C5, counterexample: after a strike in frame 10 (cursor 10, `isSpare`
false for frame 10), the bonus roll of 7 pins advances the cursor to 11 —
the code's first-bonus-slot test uses `IsSpare`, whose absent-roll-as-0 sum
is also 10 for a strike frame — while the claim (frame 10 "was a spare")
says the cursor must stay. -/
theorem C5_counterexample : ¬ C5Claim := by
  intro hcl
  have hreach : Reachable stateStrikeTenth := by
    rw [stateStrikeTenth_eq]
    exact reachable_rollSeq _ _ Reachable.init
  have h := ((hcl stateStrikeTenth hreach 7 (by decide)).1 (by decide)).2 (by decide)
  have hadv : ((stateStrikeTenth.Roll 7).2).currentRound
      = stateStrikeTenth.currentRound + 1 := by decide
  rcases h.mp hadv with ⟨_, hsp⟩ | ⟨h11, _⟩
  · exact absurd hsp (by decide)
  · exact absurd h11 (by decide)

/-- C5, amended: as claimed, except that the two end-game advance conditions
are the code's `IsSpare`/`IsStrike` tests on recorded pins: (i) the active
frame is the first bonus slot and frame 10's recorded pins (an absent roll
counting 0) sum to 10 — true after a spare OR a strike in frame 10; (ii) the
active frame is the second bonus slot and frame 10 and the first bonus slot
both have a first roll of 10. -/
theorem C5_record_roll (g : Game) (n : Nat) (hr : Reachable g)
    (hs : (g.Roll n).1 = none) :
    ((g.GetFrame g.currentRound).pinsOnFirstRoll = none →
      (n = 10 →
        (((g.Roll n).2).GetFrame g.currentRound).isStrike = true ∧
        (((g.Roll n).2).GetFrame g.currentRound).bonusRolls = 2 ∧
        (((g.Roll n).2).GetFrame g.currentRound).pinsOnSecondRoll = none ∧
        ((g.Roll n).2).currentRound = g.currentRound + 1) ∧
      (n ≠ 10 →
        (((g.Roll n).2).currentRound = g.currentRound + 1 ↔
          (g.currentRound = 10 ∧ g.IsSpare 9 = true) ∨
          (g.currentRound = 11 ∧ g.IsStrike 9 = true ∧ g.IsStrike 10 = true)))) ∧
    (∀ p, (g.GetFrame g.currentRound).pinsOnFirstRoll = some p →
      (((g.Roll n).2).GetFrame g.currentRound).pinsOnSecondRoll = some n ∧
      (p + n = 10 →
        (((g.Roll n).2).GetFrame g.currentRound).isSpare = true ∧
        (((g.Roll n).2).GetFrame g.currentRound).bonusRolls = 1) ∧
      (p + n ≠ 10 →
        (((g.Roll n).2).GetFrame g.currentRound).totalScore =
          (if 1 ≤ g.currentRound
           then (((g.Roll n).2).GetFrame (g.currentRound - 1)).totalScore else 0)
          + (((g.Roll n).2).GetFrame g.currentRound).currentScore) ∧
      ((g.Roll n).2).currentRound = g.currentRound + 1) := by
  have hInv := inv_of_reachable g hr
  obtain ⟨hc, hn, hcheck⟩ := (roll_succ_iff g n).1 hs
  have hr11 : g.currentRound ≤ 11 := not_complete_round_le g hc
  have hlen12 : g.frames.length = 12 := hInv.len
  have hHr : (g.lookBack n).currentRound = g.currentRound := lookBack_currentRound g n
  have hHlen : (g.lookBack n).frames.length = g.frames.length := lookBack_length g n
  have hrltH : g.currentRound < (g.lookBack n).frames.length := by rw [hHlen]; omega
  rw [roll_succ_state g n hs]
  unfold Game.rollBody
  constructor
  · intro hfirst
    have hscr : ((g.lookBack n).GetFrame (g.lookBack n).currentRound).pinsOnFirstRoll
        = none := by
      rw [hHr, (lookBack_pins g n g.currentRound).1]
      exact hfirst
    simp only [Game.recordPins, hscr]
    simp only [Game.recordFirst]
    rw [hHr]
    constructor
    · intro hn10
      subst hn10
      have hcond : ((g.lookBack 10).setFrame g.currentRound
          { (g.lookBack 10).GetFrame g.currentRound with pinsOnFirstRoll := some 10
          }).IsStrike g.currentRound = true := by
        unfold Game.IsStrike
        rw [GetFrame_setFrame_self _ _ _ hrltH]
        exact decide_eq_true rfl
      rw [if_pos hcond]
      refine ⟨?_, ?_, ?_, rfl⟩
      · rw [withRound_GetFrame, GetFrame_setFrame_self _ _ _ hrltH,
            GetFrame_setFrame_self _ _ _ (by rw [setFrame_length]; exact hrltH)]
      · rw [withRound_GetFrame, GetFrame_setFrame_self _ _ _ hrltH,
            GetFrame_setFrame_self _ _ _ (by rw [setFrame_length]; exact hrltH)]
      · rw [withRound_GetFrame, GetFrame_setFrame_self _ _ _ hrltH,
            GetFrame_setFrame_self _ _ _ (by rw [setFrame_length]; exact hrltH)]
        exact ((lookBack_pins g 10 g.currentRound).2.1).trans hInv.active_second
    · intro hn10
      have hcondF : ((g.lookBack n).setFrame g.currentRound
          { (g.lookBack n).GetFrame g.currentRound with pinsOnFirstRoll := some n
          }).IsStrike g.currentRound = false := by
        unfold Game.IsStrike
        rw [GetFrame_setFrame_self _ _ _ hrltH]
        exact decide_eq_false (fun hcc => hn10 (Option.some.inj hcc))
      have hg4sp : ∀ j, g.currentRound ≠ j → ((g.lookBack n).setFrame g.currentRound
          { (g.lookBack n).GetFrame g.currentRound with pinsOnFirstRoll := some n
          }).IsSpare j = g.IsSpare j := by
        intro j hj
        unfold Game.IsSpare
        rw [GetFrame_setFrame_ne _ _ _ _ hj, (lookBack_pins g n j).1,
          (lookBack_pins g n j).2.1]
      have hg4st : ∀ j, g.currentRound ≠ j → ((g.lookBack n).setFrame g.currentRound
          { (g.lookBack n).GetFrame g.currentRound with pinsOnFirstRoll := some n
          }).IsStrike j = g.IsStrike j := by
        intro j hj
        unfold Game.IsStrike
        rw [GetFrame_setFrame_ne _ _ _ _ hj, (lookBack_pins g n j).1]
      rw [if_neg (by rw [hcondF]; decide), finalFrame_sub_one, firstBonus_sub_one,
        secondBonus_sub_one]
      split_ifs with hc2 hc3
      · rw [withRound_round]
        constructor
        · intro _
          left
          exact ⟨hc2.1, by rw [← hg4sp 9 (by omega)]; exact hc2.2⟩
        · intro _
          rfl
      · rw [withRound_round]
        constructor
        · intro _
          right
          exact ⟨hc3.1, by rw [← hg4st 9 (by omega)]; exact hc3.2.1,
            by rw [← hg4st 10 (by omega)]; exact hc3.2.2⟩
        · intro _
          rfl
      · rw [setFrame_currentRound_eq, hHr]
        constructor
        · intro hcon
          omega
        · rintro (⟨h10, hsp⟩ | ⟨h11, hst9, hst10⟩)
          · exact absurd ⟨h10, by rw [hg4sp 9 (by omega)]; exact hsp⟩ hc2
          · exact absurd ⟨h11, by rw [hg4st 9 (by omega)]; exact hst9,
              by rw [hg4st 10 (by omega)]; exact hst10⟩ hc3
  · intro p hp
    have hpH : ((g.lookBack n).GetFrame g.currentRound).pinsOnFirstRoll = some p := by
      rw [(lookBack_pins g n g.currentRound).1]
      exact hp
    have hscr : ((g.lookBack n).GetFrame (g.lookBack n).currentRound).pinsOnFirstRoll
        = some p := by
      rw [hHr]
      exact hpH
    simp only [Game.recordPins, hscr]
    simp only [Game.recordSecond]
    rw [hHr]
    have hspval : ((g.lookBack n).setFrame g.currentRound
        { (g.lookBack n).GetFrame g.currentRound with pinsOnSecondRoll := some n
        }).IsSpare g.currentRound = decide (p + n = NumPins) := by
      unfold Game.IsSpare
      rw [GetFrame_setFrame_self _ _ _ hrltH]
      simp only [hpH, Option.getD_some]
    by_cases hps : p + n = 10
    · rw [if_pos (by rw [hspval]; exact decide_eq_true hps)]
      refine ⟨?_, fun _ => ⟨?_, ?_⟩, fun hcc => absurd hps hcc, rfl⟩
      · rw [withRound_GetFrame, GetFrame_setFrame_self _ _ _ hrltH,
            GetFrame_setFrame_self _ _ _ (by rw [setFrame_length]; exact hrltH)]
      · rw [withRound_GetFrame, GetFrame_setFrame_self _ _ _ hrltH,
            GetFrame_setFrame_self _ _ _ (by rw [setFrame_length]; exact hrltH)]
      · rw [withRound_GetFrame, GetFrame_setFrame_self _ _ _ hrltH,
            GetFrame_setFrame_self _ _ _ (by rw [setFrame_length]; exact hrltH)]
    · rw [if_neg (by rw [hspval]; simp [hps])]
      refine ⟨?_, fun hcc => absurd hcc hps, fun _ => ?_, rfl⟩
      · rw [withRound_GetFrame, GetFrame_setFrame_self _ _ _ hrltH,
            GetFrame_setFrame_self _ _ _ (by rw [setFrame_length]; exact hrltH)]
      · by_cases h1r : 1 ≤ g.currentRound
        · rw [if_pos h1r, if_pos h1r, withRound_GetFrame, withRound_GetFrame,
              GetFrame_setFrame_self _ _ _ hrltH,
              GetFrame_setFrame_self _ _ _ (by rw [setFrame_length]; exact hrltH),
              GetFrame_setFrame_ne _ _ (g.currentRound - 1) _ (by omega),
              GetFrame_setFrame_ne _ _ (g.currentRound - 1) _ (by omega),
              GetFrame_setFrame_ne _ _ (g.currentRound - 1) _ (by omega)]
        · rw [if_neg h1r, if_neg h1r, withRound_GetFrame,
              GetFrame_setFrame_self _ _ _ hrltH,
              GetFrame_setFrame_self _ _ _ (by rw [setFrame_length]; exact hrltH),
              Nat.zero_add]

/-- C5, witness for the amended theorem: a strike in frame 10 followed by a
7-pin bonus roll advances the cursor from 10 to 11 (frame 10's pins sum to
10 via `IsSpare`). -/
theorem C5_witness :
    ((stateStrikeTenth.Roll 7).2).currentRound = stateStrikeTenth.currentRound + 1 :=
  (((C5_record_roll stateStrikeTenth 7
      (by rw [stateStrikeTenth_eq]; exact reachable_rollSeq _ _ Reachable.init)
      (by decide)).1 (by decide)).2 (by decide)).mpr
    (Or.inl ⟨by decide, by decide⟩)

/-! ### C10: the out-of-bounds read in `RollSpare` -/

/-- The index into the 12-element `frames` array that `RollSpare` reads
before performing any completeness or validity check (`Game.hpp` line 181:
`Frame const& frame = frames[currentRound];`). -/
def rollSpareReadIndex (g : Game) : Nat := g.currentRound

/-- C10: the claim fails — after a perfect game (twelve strikes, a reachable
state) the cursor is 12, so a subsequent `RollSpare()` reads
`frames[currentRound]` at index 12, one past the end of the 12-element
array. -/
theorem C10_rollSpare_oob :
    Reachable (initGame.rollStrikes 12).2 ∧
    rollSpareReadIndex (initGame.rollStrikes 12).2 = 12 ∧
    ¬ rollSpareReadIndex (initGame.rollStrikes 12).2 < MaxFrames :=
  ⟨reachable_rollStrikes 12 initGame Reachable.init, by decide, by decide⟩

end ExperisBowling
